import Mathlib

/-!
# NutriBot — shallow embedding and verification

Shallow embedding of `src/nutri_bot.py` (a questionnaire-driven nutrition
bot): the calculation engine (`calculate_bmr`, `calculate_daily_calories`,
`calculate_macros`), the per-state message handlers, the aiogram-style
dispatch (commands first, then by FSM state), and the plan-delivery
chunking.  Python floats are modelled as `ℚ`; Python `round` (which rounds
half to even) is modelled by `pythonRound`.
-/

namespace NutriBot

/-- Round half to even, the policy of Python's builtin `round`. -/
def pythonRound (q : ℚ) : ℤ :=
  let f := Int.floor q
  let r := q - f
  if r < 1/2 then f
  else if 1/2 < r then f + 1
  else if f % 2 = 0 then f else f + 1

/-- `ACTIVITY_COEFFICIENTS` dict from the source (activity label ↦ multiplier). -/
def ACTIVITY_COEFFICIENTS : List (String × ℚ) :=
  [("Минимальная", 1.2), ("Низкая", 1.375), ("Средняя", 1.55),
   ("Высокая", 1.725), ("Очень высокая", 1.9)]

/-- `GOAL_COEFFICIENTS` dict from the source (goal label ↦ adjustment fraction). -/
def GOAL_COEFFICIENTS : List (String × ℚ) :=
  [("Похудеть", -0.2), ("Поддерживать форму", 0), ("Набрать массу", 0.2)]

/-- Python `dict.get(key, default)` on an association list. -/
def dictGet (m : List (String × ℚ)) (k : String) (d : ℚ) : ℚ :=
  match m.find? (fun p => p.1 = k) with
  | some p => p.2
  | none => d

/-- Python `key in dict` on an association list. -/
def dictHasKey (m : List (String × ℚ)) (k : String) : Bool :=
  (m.find? (fun p => p.1 = k)).isSome

/-- `calculate_bmr`: Mifflin–St Jeor; any gender other than the literal
label `Мужской` falls through to the female branch. -/
def calculate_bmr (gender : String) (weight height : ℚ) (age : ℤ) : ℚ :=
  if gender = "Мужской" then
    10 * weight + 6.25 * height - 5 * (age : ℚ) + 5
  else
    10 * weight + 6.25 * height - 5 * (age : ℚ) - 161

/-- `calculate_daily_calories`: TDEE scaled by goal adjustment, rounded. -/
def calculate_daily_calories (bmr : ℚ) (activity goal : String) : ℤ :=
  let activity_coef := dictGet ACTIVITY_COEFFICIENTS activity 1.2
  let goal_coef := dictGet GOAL_COEFFICIENTS goal 0
  let tdee := bmr * activity_coef
  let adjusted_calories := tdee * (1 + goal_coef)
  pythonRound adjusted_calories

/-- The `{'protein': .., 'fat': .., 'carbs': ..}` dict of `calculate_macros`. -/
structure MacroSplit where
  protein : ℤ
  fat : ℤ
  carbs : ℤ
deriving DecidableEq, Repr

/-- `calculate_macros`: 30/25/45 caloric split, 4/9/4 kcal per gram. -/
def calculate_macros (calories : ℤ) : MacroSplit :=
  let protein_calories : ℚ := (calories : ℚ) * 0.30
  let fat_calories : ℚ := (calories : ℚ) * 0.25
  let carb_calories : ℚ := (calories : ℚ) * 0.45
  { protein := pythonRound (protein_calories / 4)
    fat := pythonRound (fat_calories / 9)
    carbs := pythonRound (carb_calories / 4) }

/-! ## Input parsing

Models of Python's `int(text)` and `float(text)` on the decimal forms the
bot receives (optional surrounding whitespace, optional sign, digits,
for floats at most one decimal point; exotic forms such as digit-group
underscores, exponents, `inf`/`nan` are not modelled). -/

/-- Accumulate a decimal digit string into a natural number. -/
def digitsToNat (cs : List Char) : ℕ :=
  cs.foldl (fun acc c => 10 * acc + (c.toNat - 48)) 0

/-- Strip leading and trailing whitespace, as Python number parsing does. -/
def stripWs (cs : List Char) : List Char :=
  ((cs.dropWhile Char.isWhitespace).reverse.dropWhile Char.isWhitespace).reverse

/-- Split an optional leading sign; `true` means negative. -/
def splitSign : List Char → (Bool × List Char)
  | '-' :: rest => (true, rest)
  | '+' :: rest => (false, rest)
  | cs => (false, cs)

/-- Model of Python `int(s)`: optional sign, then a nonempty digit string. -/
def parseInt (s : String) : Option ℤ :=
  let p := splitSign (stripWs s.toList)
  if p.2 ≠ [] ∧ p.2.all Char.isDigit then
    some (if p.1 then -(digitsToNat p.2 : ℤ) else (digitsToNat p.2 : ℤ))
  else none

/-- Decidable scan for a decimal float body: integer part and fractional
part around at most one dot, at least one digit in total. -/
def pyFloatScan (ds : List Char) : Option (List Char × List Char) :=
  match ds.splitOn '.' with
  | [as] => if as ≠ [] ∧ as.all Char.isDigit then some (as, []) else none
  | [as, bs] =>
    if (as ++ bs) ≠ [] ∧ (as ++ bs).all Char.isDigit then some (as, bs) else none
  | _ => none

/-- Rational value of an unsigned decimal with integer part `ip` and
fractional part `fp`. -/
def ratOfParts (ip fp : List Char) : ℚ :=
  (digitsToNat ip : ℚ) + (digitsToNat fp : ℚ) / 10 ^ fp.length

/-- Model of Python `float(s)` on plain decimal notation. -/
def parsePyFloat (s : String) : Option ℚ :=
  let p := splitSign (stripWs s.toList)
  (pyFloatScan p.2).map (fun q => if p.1 then -(ratOfParts q.1 q.2) else ratOfParts q.1 q.2)

/-- Python `text.replace(',', '.')` used by the weight and height handlers. -/
def replaceComma (s : String) : String :=
  String.mk (s.toList.map (fun c => if c = ',' then '.' else c))

/-! ## Session state store

aiogram's `FSMContext` for one conversation: the current FSM state
(`None` before `/start`, modelled as `idle`) and the data dict written by
`state.update_data` / read by `state.get_data`.  Each dict key becomes an
`Option` field; `state.clear()` resets everything. -/

/-- `UserStates` from the source, plus `idle` for aiogram's no-state
(`None`) situation before `/start` and after `state.clear()`. -/
inductive UserStates where
  | idle
  | gender
  | age
  | weight
  | height
  | activity
  | goal
  | menu
deriving DecidableEq, Repr

/-- The FSM data dict: questionnaire answers plus derived targets. -/
structure SessionData where
  gender : Option String := none
  age : Option ℤ := none
  weight : Option ℚ := none
  height : Option ℚ := none
  activity : Option String := none
  goal : Option String := none
  bmr : Option ℚ := none
  daily_calories : Option ℤ := none
  macros : Option MacroSplit := none
deriving DecidableEq, Repr

/-- One conversation's full FSM context: current state plus data dict. -/
structure Config where
  state : UserStates
  data : SessionData
deriving DecidableEq, Repr

/-- A freshly created session: no FSM state, empty data dict. -/
def initConfig : Config := ⟨.idle, {}⟩

/-! ## Message handlers

Each Python handler, as a function from the incoming message text and the
current data dict to the updated FSM context.  Outbound prompt texts are
not modelled except for `show_my_data`, whose summary content the spec
constrains (see `Summary`). -/

/-- `process_gender`: stores whatever text arrived and advances to age;
the two gender labels are only keyboard buttons, not validated. -/
def process_gender (text : String) (d : SessionData) : Config :=
  ⟨.age, { d with gender := some text }⟩

/-- `process_age`: parse as int, require 10..120, else re-prompt in place. -/
def process_age (text : String) (d : SessionData) : Config :=
  match parseInt text with
  | some user_age =>
    if user_age < 10 ∨ 120 < user_age then ⟨.age, d⟩
    else ⟨.weight, { d with age := some user_age }⟩
  | none => ⟨.age, d⟩

/-- `process_weight`: parse as float (comma accepted), require 30..300. -/
def process_weight (text : String) (d : SessionData) : Config :=
  match parsePyFloat (replaceComma text) with
  | some user_weight =>
    if user_weight < 30 ∨ 300 < user_weight then ⟨.weight, d⟩
    else ⟨.height, { d with weight := some user_weight }⟩
  | none => ⟨.weight, d⟩

/-- `process_height`: parse as float (comma accepted), require 100..250. -/
def process_height (text : String) (d : SessionData) : Config :=
  match parsePyFloat (replaceComma text) with
  | some user_height =>
    if user_height < 100 ∨ 250 < user_height then ⟨.height, d⟩
    else ⟨.activity, { d with height := some user_height }⟩
  | none => ⟨.height, d⟩

/-- `process_activity`: the label must be a key of `ACTIVITY_COEFFICIENTS`. -/
def process_activity (text : String) (d : SessionData) : Config :=
  if dictHasKey ACTIVITY_COEFFICIENTS text then ⟨.goal, { d with activity := some text }⟩
  else ⟨.activity, d⟩

/-- `process_goal`: the label must be a key of `GOAL_COEFFICIENTS`; on
success the goal is stored, the derived targets are computed from the
stored answers (`data['gender']` etc.) and the session moves to `menu`.
If any answer key were missing, the Python handler would raise `KeyError`
after storing the goal, leaving the FSM state unchanged; the final match
arm models that aborted run. -/
def process_goal (text : String) (d : SessionData) : Config :=
  if dictHasKey GOAL_COEFFICIENTS text then
    let d1 := { d with goal := some text }
    match d1.gender, d1.weight, d1.height, d1.age, d1.activity, d1.goal with
    | some g, some w, some h, some a, some act, some gl =>
      let bmr := calculate_bmr g w h a
      let daily_calories := calculate_daily_calories bmr act gl
      let m := calculate_macros daily_calories
      ⟨.menu, { d1 with bmr := some bmr, daily_calories := some daily_calories,
                        macros := some m }⟩
    | _, _, _, _, _, _ => ⟨.goal, d1⟩
  else ⟨.goal, d⟩

/-- The content of the `show_my_data` summary message: every value the
message interpolates, after the `data.get(..., default)` fallbacks. -/
structure Summary where
  gender : Option String
  age : Option ℤ
  weight : Option ℚ
  height : Option ℚ
  activity : Option String
  goal : Option String
  bmrRounded : ℤ
  dailyCalories : ℤ
  protein : ℤ
  fat : ℤ
  carbs : ℤ
deriving DecidableEq, Repr

/-- `show_my_data`: reads the data dict with defaults and renders it;
no `update_data`, no `set_state`. -/
def show_my_data (d : SessionData) : Summary :=
  { gender := d.gender
    age := d.age
    weight := d.weight
    height := d.height
    activity := d.activity
    goal := d.goal
    bmrRounded := pythonRound (d.bmr.getD 0)
    dailyCalories := d.daily_calories.getD 0
    protein := (d.macros.getD ⟨0, 0, 0⟩).protein
    fat := (d.macros.getD ⟨0, 0, 0⟩).fat
    carbs := (d.macros.getD ⟨0, 0, 0⟩).carbs }

/-! ## The dispatcher

aiogram tries handlers in registration order: `cmd_start`
(`Command('start')`), `cmd_cancel` (`Command('cancel')`), then the
state-filtered handlers.  Commands therefore take priority in every
state.  A message matching no handler is dropped without any effect. -/

/-- One dispatch step: incoming text against the current FSM context.
Returns the updated context plus the summary message, when the step
emitted one. -/
def stepOut (c : Config) (text : String) : Config × Option Summary :=
  if text = "/start" then (⟨.gender, c.data⟩, none)
  else if text = "/cancel" then (⟨.idle, {}⟩, none)
  else
    match c.state with
    | .idle => (c, none)
    | .gender => (process_gender text c.data, none)
    | .age => (process_age text c.data, none)
    | .weight => (process_weight text c.data, none)
    | .height => (process_height text c.data, none)
    | .activity => (process_activity text c.data, none)
    | .goal => (process_goal text c.data, none)
    | .menu =>
      if text = "📋 Мои данные" then (c, some (show_my_data c.data))
      else if text = "🔄 Пересчитать" then (⟨.gender, c.data⟩, none)
      else if text = "🍽 Сгенерировать меню" ∨ text = "🆕 Новое меню" then (c, none)
      else (c, none)

/-- One dispatch step, context part only. -/
def step (c : Config) (text : String) : Config := (stepOut c text).1

/-- Run a list of incoming messages from a context. -/
def run (c : Config) (texts : List String) : Config := texts.foldl step c

/-- All contexts the dispatcher can reach from a fresh session. -/
inductive Reachable : Config → Prop where
  | init : Reachable initConfig
  | step : ∀ {c : Config} (t : String), Reachable c → Reachable (step c t)

/-- A first-pass input: `/start` only from `idle`, and no restart action. -/
def firstPassInput (c : Config) (t : String) : Prop :=
  (t = "/start" → c.state = .idle) ∧ (c.state = .menu → t ≠ "🔄 Пересчитать")

/-- Contexts reachable without restarting: every `/start` is issued at
`idle` and the menu's restart action is never used. -/
inductive ReachableFirstPass : Config → Prop where
  | init : ReachableFirstPass initConfig
  | step : ∀ {c : Config} (t : String), ReachableFirstPass c → firstPassInput c t →
      ReachableFirstPass (step c t)

/-- The populated profile fields are exactly the given pattern
(gender, age, weight, height, activity, goal). -/
def populatedExactly (d : SessionData) (g a w h act gl : Bool) : Prop :=
  d.gender.isSome = g ∧ d.age.isSome = a ∧ d.weight.isSome = w ∧
  d.height.isSome = h ∧ d.activity.isSome = act ∧ d.goal.isSome = gl

/-- The spec's lifecycle invariant: the populated profile fields are
exactly those collected strictly before the current state in the order
gender, age, weight, height, activity, goal. -/
def stateInv (c : Config) : Prop :=
  match c.state with
  | .idle => populatedExactly c.data false false false false false false
  | .gender => populatedExactly c.data false false false false false false
  | .age => populatedExactly c.data true false false false false false
  | .weight => populatedExactly c.data true true false false false false
  | .height => populatedExactly c.data true true true false false false
  | .activity => populatedExactly c.data true true true true false false
  | .goal => populatedExactly c.data true true true true true false
  | .menu => populatedExactly c.data true true true true true true

/-! ## Plan delivery (`generate_menu`)

The outbound delivery of the generated plan text, over `List Char`
(Python `len` counts code points, as `List.length` does here). -/

/-- The slices `menu_text[i:i+4000]` for `i in range(0, len, 4000)`. -/
def chunks4000 (cs : List Char) : List (List Char) :=
  if cs = [] then []
  else cs.take 4000 :: chunks4000 (cs.drop 4000)
termination_by cs.length
decreasing_by
  simp only [List.length_drop]
  have : cs.length ≠ 0 := fun hl => by simp_all [List.length_eq_zero]
  omega

/-- The chunk message head: `"📋 Ваше меню (часть {i}/{n}):\n\n"`. -/
def chunkTag (i n : ℕ) : List Char :=
  "📋 Ваше меню (часть ".toList ++ (Nat.repr i).toList ++ "/".toList ++
    (Nat.repr n).toList ++ "):\n\n".toList

/-- The single-message head of the short branch. -/
def singleHead : List Char :=
  "📋 Ваше персонализированное меню на неделю:\n\n".toList

/-- The outbound messages `generate_menu` sends for a plan text: texts
longer than 4096 characters are split into 4000-character slices, each
sent with its ordinal tag; shorter texts are sent as one message. -/
def sendMenu (menu_text : List Char) : List (List Char) :=
  if 4096 < menu_text.length then
    let parts := chunks4000 menu_text
    parts.enum.map (fun p => chunkTag (p.1 + 1) parts.length ++ p.2)
  else
    [singleHead ++ menu_text]

end NutriBot

namespace NutriBot

/-- A key the dict does not hold falls back to the default. -/
theorem dictGet_of_not_hasKey (m : List (String × ℚ)) (k : String) (d : ℚ)
    (h : dictHasKey m k = false) : dictGet m k d = d := by
  unfold dictGet
  unfold dictHasKey at h
  cases hf : m.find? (fun p => p.1 = k) with
  | none => rfl
  | some p => rw [hf] at h; simp at h

/-- C2 counterexample: the claim's concrete values do not match the code.
`calculate_bmr('Мужской', 70, 175, 30)` is `1648.75`, not `1573.75`, and
`calculate_bmr('Женский', 60, 165, 25)` is `1345.25`, not `602.25`. -/
theorem c2_bmr_examples_false :
    calculate_bmr "Мужской" 70 175 30 ≠ 1573.75 ∧
    calculate_bmr "Женский" 60 165 25 ≠ 602.25 := by
  have h : ("Женский" : String) ≠ "Мужской" := by decide
  constructor
  · simp only [calculate_bmr, if_pos rfl]
    norm_num
  · simp only [calculate_bmr, if_neg h]
    norm_num

/-- C2 (amended): `calculate_bmr` follows Mifflin–St Jeor with a binary
fallback — `10*w + 6.25*h - 5*a + 5` exactly when the gender equals the
label `Мужской`, and `10*w + 6.25*h - 5*a - 161` for every other gender
value; the concrete values are `1648.75` and `1345.25`. -/
theorem c2_bmr_formula (w h : ℚ) (a : ℤ) (g : String) :
    (g = "Мужской" → calculate_bmr g w h a = 10 * w + 6.25 * h - 5 * (a : ℚ) + 5) ∧
    (g ≠ "Мужской" → calculate_bmr g w h a = 10 * w + 6.25 * h - 5 * (a : ℚ) - 161) ∧
    calculate_bmr "Мужской" 70 175 30 = 1648.75 ∧
    calculate_bmr "Женский" 60 165 25 = 1345.25 := by
  have hf : ("Женский" : String) ≠ "Мужской" := by decide
  refine ⟨fun hg => ?_, fun hg => ?_, ?_, ?_⟩
  · simp only [calculate_bmr, if_pos hg]
  · simp only [calculate_bmr, if_neg hg]
  · norm_num [calculate_bmr]
  · simp only [calculate_bmr, if_neg hf]
    norm_num

/-- C2 witness: the female branch applied at a concrete non-male label. -/
theorem c2_bmr_formula_witness :
    calculate_bmr "Женский" 60 165 25 = 10 * 60 + 6.25 * 165 - 5 * ((25 : ℤ) : ℚ) - 161 :=
  (c2_bmr_formula 60 165 25 "Женский").2.1 (by decide)

/-- C3: `calculate_daily_calories` rounds `bmr * multiplier * (1 + goal
adjustment)` under the single policy of Python `round` (half to even, as
the `5/2` and `7/2` conjuncts pin); an unknown activity label falls back
to multiplier `1.2`, an unknown goal label to adjustment `0`; and the
spec's concrete example evaluates to `2439`. -/
theorem c3_daily_calories (bmr : ℚ) (activity goal : String) :
    calculate_daily_calories bmr activity goal =
      pythonRound (bmr * dictGet ACTIVITY_COEFFICIENTS activity 1.2 *
        (1 + dictGet GOAL_COEFFICIENTS goal 0)) ∧
    (dictHasKey ACTIVITY_COEFFICIENTS activity = false →
      calculate_daily_calories bmr activity goal =
        pythonRound (bmr * 1.2 * (1 + dictGet GOAL_COEFFICIENTS goal 0))) ∧
    (dictHasKey GOAL_COEFFICIENTS goal = false →
      calculate_daily_calories bmr activity goal =
        pythonRound (bmr * dictGet ACTIVITY_COEFFICIENTS activity 1.2 * (1 + 0))) ∧
    pythonRound (5 / 2) = 2 ∧ pythonRound (7 / 2) = 4 ∧
    calculate_daily_calories 1573.75 "Средняя" "Поддерживать форму" = 2439 := by
  refine ⟨rfl, fun ha => ?_, fun hg => ?_, ?_, ?_, ?_⟩
  · simp only [calculate_daily_calories, dictGet_of_not_hasKey _ _ _ ha]
  · simp only [calculate_daily_calories, dictGet_of_not_hasKey _ _ _ hg]
  · norm_num [pythonRound]
  · norm_num [pythonRound]
  · have h1 : dictGet ACTIVITY_COEFFICIENTS "Средняя" 1.2 = 1.55 := rfl
    have h2 : dictGet GOAL_COEFFICIENTS "Поддерживать форму" 0 = 0 := rfl
    simp only [calculate_daily_calories, h1, h2]
    norm_num [pythonRound]

/-- C3 witness: unknown labels at concrete inputs use the defaults. -/
theorem c3_daily_calories_witness :
    calculate_daily_calories 1000 "Сверхвысокая" "Лечь в спячку" =
      pythonRound (1000 * 1.2 * (1 + dictGet GOAL_COEFFICIENTS "Лечь в спячку" 0)) :=
  (c3_daily_calories 1000 "Сверхвысокая" "Лечь в спячку").2.1 (by decide)

/-- Dispatch of `/start` from any context: state moves to `gender`,
the data dict is untouched. -/
theorem step_start (c : Config) : step c "/start" = ⟨.gender, c.data⟩ := by
  simp only [step, stepOut, eq_self_iff_true, if_true]

/-- Dispatch of `/cancel` from any context: the whole session is cleared. -/
theorem step_cancel (c : Config) : step c "/cancel" = ⟨.idle, {}⟩ := by
  have h : ("/cancel" : String) ≠ "/start" := by decide
  simp only [step, stepOut, if_neg h, eq_self_iff_true, if_true]

/-- Any non-command text in the `gender` state is stored as the gender
and the session advances to `age`. -/
theorem step_gender_any (d : SessionData) (t : String)
    (h1 : t ≠ "/start") (h2 : t ≠ "/cancel") :
    step ⟨.gender, d⟩ t = ⟨.age, { d with gender := some t }⟩ := by
  simp only [step, stepOut, if_neg h1, if_neg h2, process_gender]

/-- Non-command dispatch in the numeric and label states reduces to the
relevant handler. -/
theorem step_handler (d : SessionData) (t : String)
    (h1 : t ≠ "/start") (h2 : t ≠ "/cancel") :
    step ⟨.age, d⟩ t = process_age t d ∧
    step ⟨.weight, d⟩ t = process_weight t d ∧
    step ⟨.height, d⟩ t = process_height t d ∧
    step ⟨.activity, d⟩ t = process_activity t d ∧
    step ⟨.goal, d⟩ t = process_goal t d := by
  refine ⟨?_, ?_, ?_, ?_, ?_⟩ <;> simp only [step, stepOut, if_neg h1, if_neg h2]

/-- The menu's restart action: only the state changes, the data stays. -/
theorem step_menu_restart (d : SessionData) :
    step ⟨.menu, d⟩ "🔄 Пересчитать" = ⟨.gender, d⟩ := by
  have h1 : ("🔄 Пересчитать" : String) ≠ "/start" := by decide
  have h2 : ("🔄 Пересчитать" : String) ≠ "/cancel" := by decide
  have h3 : ("🔄 Пересчитать" : String) ≠ "📋 Мои данные" := by decide
  simp only [step, stepOut, if_neg h1, if_neg h2, if_neg h3, eq_self_iff_true, if_true]

/-- The menu's show-data action: full step output — context unchanged,
the summary of the current data emitted. -/
theorem stepOut_menu_show (d : SessionData) :
    stepOut ⟨.menu, d⟩ "📋 Мои данные" = (⟨.menu, d⟩, some (show_my_data d)) := by
  have h1 : ("📋 Мои данные" : String) ≠ "/start" := by decide
  have h2 : ("📋 Мои данные" : String) ≠ "/cancel" := by decide
  simp only [stepOut, if_neg h1, if_neg h2, eq_self_iff_true, if_true]

/-- Any other text in the menu state falls through with no effect. -/
theorem step_menu_other (d : SessionData) (t : String) (h1 : t ≠ "/start")
    (h2 : t ≠ "/cancel") (h3 : t ≠ "📋 Мои данные") (h4 : t ≠ "🔄 Пересчитать") :
    step ⟨.menu, d⟩ t = ⟨.menu, d⟩ := by
  by_cases h5 : t = "🍽 Сгенерировать меню" ∨ t = "🆕 Новое меню" <;>
    simp only [step, stepOut, if_neg h1, if_neg h2, if_neg h3, if_neg h4, h5,
      if_true, if_false]

/-- C5 counterexample: in the gender state the unknown label `не знаю`
is not re-prompted; the session advances to `age` and the gender field is
mutated to that text. -/
theorem c5_counterexample :
    (step ⟨.gender, {}⟩ "не знаю").state ≠ UserStates.gender ∧
    (step ⟨.gender, {}⟩ "не знаю").data.gender ≠ none := by
  have h : step ⟨.gender, {}⟩ "не знаю" =
      ⟨.age, { ({} : SessionData) with gender := some "не знаю" }⟩ := by
    have h1 : ("не знаю" : String) ≠ "/start" := by decide
    have h2 : ("не знаю" : String) ≠ "/cancel" := by decide
    simp only [step, stepOut, if_neg h1, if_neg h2, process_gender]
  rw [h]
  exact ⟨by decide, by simp⟩

/-- C5 (amended): in the gender state every non-command text — known
label or not — is stored as the gender and the session advances to the
age state; the two fixed labels are offered only as keyboard buttons and
are not validated. -/
theorem c5_gender_no_validation (d : SessionData) (t : String)
    (h1 : t ≠ "/start") (h2 : t ≠ "/cancel") :
    step ⟨.gender, d⟩ t = ⟨.age, { d with gender := some t }⟩ :=
  step_gender_any d t h1 h2

/-- C5 witness: a known label is likewise stored, advancing to age. -/
theorem c5_gender_no_validation_witness :
    step ⟨.gender, {}⟩ "Мужской" =
      ⟨.age, { ({} : SessionData) with gender := some "Мужской" }⟩ :=
  c5_gender_no_validation {} "Мужской" (by decide) (by decide)

/-- C7: from every context, `/cancel` wins over the state's own handler
and clears the whole session — every profile field and every derived
value is gone — and a following `/start` opens a fresh questionnaire in
the gender state with the data still empty. -/
theorem c7_cancel_clears (c : Config) :
    step c "/cancel" = ⟨.idle, {}⟩ ∧
    (step c "/cancel").data.gender = none ∧
    (step c "/cancel").data.age = none ∧
    (step c "/cancel").data.weight = none ∧
    (step c "/cancel").data.height = none ∧
    (step c "/cancel").data.activity = none ∧
    (step c "/cancel").data.goal = none ∧
    (step c "/cancel").data.bmr = none ∧
    (step c "/cancel").data.daily_calories = none ∧
    (step c "/cancel").data.macros = none ∧
    step (step c "/cancel") "/start" = ⟨.gender, {}⟩ := by
  have h := step_cancel c
  rw [h, step_start]
  exact ⟨rfl, rfl, rfl, rfl, rfl, rfl, rfl, rfl, rfl, rfl, rfl⟩

/-- C8: the menu's restart action changes only the state (to gender);
every stored profile field and derived target is untouched, and the
following re-answer overwrites only the gender field. -/
theorem c8_restart_frame (d : SessionData) (t : String)
    (h1 : t ≠ "/start") (h2 : t ≠ "/cancel") :
    step ⟨.menu, d⟩ "🔄 Пересчитать" = ⟨.gender, d⟩ ∧
    step ⟨.gender, d⟩ t = ⟨.age, { d with gender := some t }⟩ :=
  ⟨step_menu_restart d, step_gender_any d t h1 h2⟩

/-- A fully populated session data dict, as it stands after one complete
pass of the questionnaire. -/
def sampleFull : SessionData :=
  { gender := some "Мужской", age := some 30, weight := some 70,
    height := some 175, activity := some "Средняя",
    goal := some "Поддерживать форму", bmr := some 1648.75,
    daily_calories := some 2439, macros := some ⟨183, 68, 274⟩ }

/-- C8 witness: restart on a fully populated session keeps every field
and derived target; re-answering overwrites only the gender. -/
theorem c8_restart_frame_witness :
    step ⟨.menu, sampleFull⟩ "🔄 Пересчитать" = ⟨.gender, sampleFull⟩ ∧
    step ⟨.gender, sampleFull⟩ "Женский" =
      ⟨.age, { sampleFull with gender := some "Женский" }⟩ :=
  c8_restart_frame sampleFull "Женский" (by decide) (by decide)

/-- C9: show-data in the menu is read-only and idempotent: any number of
submissions leaves the state and every stored value unchanged, and each
submission emits the summary of the same stored data. -/
theorem c9_show_data_idempotent (d : SessionData) (n : ℕ) :
    (fun c => step c "📋 Мои данные")^[n] ⟨.menu, d⟩ = ⟨.menu, d⟩ ∧
    (stepOut ((fun c => step c "📋 Мои данные")^[n] ⟨.menu, d⟩) "📋 Мои данные").2 =
      some (show_my_data d) := by
  have hfix : (fun c => step c "📋 Мои данные") ⟨.menu, d⟩ = ⟨.menu, d⟩ := by
    show (stepOut ⟨.menu, d⟩ "📋 Мои данные").1 = ⟨.menu, d⟩
    rw [stepOut_menu_show d]
  have hiter := @Function.iterate_fixed Config (fun c => step c "📋 Мои данные")
    ⟨.menu, d⟩ hfix n
  refine ⟨hiter, ?_⟩
  rw [hiter, stepOut_menu_show d]

/-- A non-command message with no FSM state set matches no handler. -/
theorem step_idle_other (d : SessionData) (t : String)
    (h1 : t ≠ "/start") (h2 : t ≠ "/cancel") :
    step ⟨.idle, d⟩ t = ⟨.idle, d⟩ := by
  simp only [step, stepOut, if_neg h1, if_neg h2]

/-- The menu's show-data action, context part: nothing changes. -/
theorem step_menu_show (d : SessionData) :
    step ⟨.menu, d⟩ "📋 Мои данные" = ⟨.menu, d⟩ := by
  show (stepOut ⟨.menu, d⟩ "📋 Мои данные").1 = ⟨.menu, d⟩
  rw [stepOut_menu_show d]

/-- Running any list of messages from a reachable context stays reachable. -/
theorem reachable_run (ts : List String) (c : Config) (h : Reachable c) :
    Reachable (run c ts) := by
  induction ts generalizing c with
  | nil => exact h
  | cons t ts ih => exact ih (step c t) (Reachable.step t h)

/-- One first-pass dispatch step preserves the lifecycle invariant. -/
theorem stateInv_step (c : Config) (t : String) (hfp : firstPassInput c t)
    (hI : stateInv c) : stateInv (step c t) := by
  obtain ⟨s, d⟩ := c
  by_cases hs : t = "/start"
  · subst hs
    have hidle : s = .idle := hfp.1 rfl
    subst hidle
    rw [step_start]
    exact hI
  · by_cases hc : t = "/cancel"
    · subst hc
      rw [step_cancel]
      exact ⟨rfl, rfl, rfl, rfl, rfl, rfl⟩
    · cases s with
      | idle => rw [step_idle_other d t hs hc]; exact hI
      | gender =>
        rw [step_gender_any d t hs hc]
        exact ⟨rfl, hI.2.1, hI.2.2.1, hI.2.2.2.1, hI.2.2.2.2.1, hI.2.2.2.2.2⟩
      | age =>
        rw [(step_handler d t hs hc).1]
        unfold process_age
        cases hp : parseInt t with
        | none => exact hI
        | some n =>
          dsimp only
          by_cases hr : n < 10 ∨ 120 < n
          · rw [if_pos hr]; exact hI
          · rw [if_neg hr]
            exact ⟨hI.1, rfl, hI.2.2.1, hI.2.2.2.1, hI.2.2.2.2.1, hI.2.2.2.2.2⟩
      | weight =>
        rw [(step_handler d t hs hc).2.1]
        unfold process_weight
        cases hp : parsePyFloat (replaceComma t) with
        | none => exact hI
        | some q =>
          dsimp only
          by_cases hr : q < 30 ∨ 300 < q
          · rw [if_pos hr]; exact hI
          · rw [if_neg hr]
            exact ⟨hI.1, hI.2.1, rfl, hI.2.2.2.1, hI.2.2.2.2.1, hI.2.2.2.2.2⟩
      | height =>
        rw [(step_handler d t hs hc).2.2.1]
        unfold process_height
        cases hp : parsePyFloat (replaceComma t) with
        | none => exact hI
        | some q =>
          dsimp only
          by_cases hr : q < 100 ∨ 250 < q
          · rw [if_pos hr]; exact hI
          · rw [if_neg hr]
            exact ⟨hI.1, hI.2.1, hI.2.2.1, rfl, hI.2.2.2.2.1, hI.2.2.2.2.2⟩
      | activity =>
        rw [(step_handler d t hs hc).2.2.2.1]
        unfold process_activity
        by_cases hk : dictHasKey ACTIVITY_COEFFICIENTS t = true
        · rw [if_pos hk]
          exact ⟨hI.1, hI.2.1, hI.2.2.1, hI.2.2.2.1, rfl, hI.2.2.2.2.2⟩
        · rw [if_neg hk]; exact hI
      | goal =>
        rw [(step_handler d t hs hc).2.2.2.2]
        unfold process_goal
        by_cases hk : dictHasKey GOAL_COEFFICIENTS t = true
        · rw [if_pos hk]
          obtain ⟨hg, ha, hw, hh, hact, hgl⟩ := hI
          obtain ⟨g, hg'⟩ := Option.isSome_iff_exists.mp hg
          obtain ⟨a, ha'⟩ := Option.isSome_iff_exists.mp ha
          obtain ⟨w, hw'⟩ := Option.isSome_iff_exists.mp hw
          obtain ⟨h, hh'⟩ := Option.isSome_iff_exists.mp hh
          obtain ⟨act, hact'⟩ := Option.isSome_iff_exists.mp hact
          dsimp only
          rw [hg', ha', hw', hh', hact']
          exact ⟨rfl, rfl, rfl, rfl, rfl, rfl⟩
        · rw [if_neg hk]; exact hI
      | menu =>
        by_cases h3 : t = "📋 Мои данные"
        · subst h3
          rw [step_menu_show d]
          exact hI
        · have h4 : t ≠ "🔄 Пересчитать" := hfp.2 rfl
          rw [step_menu_other d t hs hc h3 h4]
          exact hI

/-- C1 (amended): along every run in which `/start` is only issued from
the idle state and the menu's restart action is never used, the populated
profile fields are exactly those collected strictly before the current
state in the canonical order gender, age, weight, height, activity, goal;
in particular, in the age-collection state the gender is set and the age
is not.  (After a restart — or a `/start` from a non-idle state — the
previously collected fields persist, so the unrestricted claim fails; see
the counterexample.) -/
theorem c1_first_pass_invariant (c : Config) (hr : ReachableFirstPass c) :
    stateInv c ∧
    (c.state = UserStates.age → c.data.gender.isSome = true ∧ c.data.age = none) := by
  have main : stateInv c := by
    induction hr with
    | init => exact ⟨rfl, rfl, rfl, rfl, rfl, rfl⟩
    | step t hprev hfp ih => exact stateInv_step _ t hfp ih
  refine ⟨main, fun hage => ?_⟩
  obtain ⟨s, d⟩ := c
  have hs : s = UserStates.age := hage
  subst hs
  refine ⟨main.1, ?_⟩
  have h2 := main.2.1
  cases hda : d.age with
  | none => rfl
  | some x => rw [hda] at h2; cases h2

/-- C1 witness: the invariant instantiated on the concrete first-pass run
`/start` then a gender answer, which lands in the age state. -/
theorem c1_first_pass_invariant_witness :
    stateInv (step (step initConfig "/start") "Мужской") ∧
    ((step (step initConfig "/start") "Мужской").state = UserStates.age →
      (step (step initConfig "/start") "Мужской").data.gender.isSome = true ∧
      (step (step initConfig "/start") "Мужской").data.age = none) :=
  c1_first_pass_invariant _
    (ReachableFirstPass.step "Мужской"
      (ReachableFirstPass.step "/start" ReachableFirstPass.init
        ⟨fun _ => rfl, fun _ => by decide⟩)
      ⟨fun h => absurd h (by decide), fun _ => by decide⟩)

/-- Data after the gender answer of the demonstration run. -/
def d_g : SessionData := { gender := some "Мужской" }

/-- Data after the age answer of the demonstration run. -/
def d_ga : SessionData := { gender := some "Мужской", age := some 30 }

/-- Data after the weight answer of the demonstration run. -/
def d_gaw : SessionData := { d_ga with weight := some 70 }

/-- Data after the height answer of the demonstration run. -/
def d_gawh : SessionData := { d_gaw with height := some 175 }

/-- Data after the activity answer of the demonstration run. -/
def d_gawha : SessionData := { d_gawh with activity := some "Средняя" }

/-- Data after the goal answer: the full profile plus derived targets. -/
def d_full : SessionData :=
  { d_gawha with
    goal := some "Поддерживать форму"
    bmr := some (calculate_bmr "Мужской" 70 175 30)
    daily_calories := some (calculate_daily_calories
      (calculate_bmr "Мужской" 70 175 30) "Средняя" "Поддерживать форму")
    macros := some (calculate_macros (calculate_daily_calories
      (calculate_bmr "Мужской" 70 175 30) "Средняя" "Поддерживать форму")) }

/-- A run that completes the questionnaire, restarts from the menu and
re-answers the gender question. -/
def c1_demoRestart : Config :=
  run initConfig ["/start", "Мужской", "30", "70", "175", "Средняя",
    "Поддерживать форму", "🔄 Пересчитать", "Женский"]

/-- A run that issues `/start` again in the middle of the questionnaire
and re-answers the gender question. -/
def c1_demoStart : Config :=
  run initConfig ["/start", "Мужской", "30", "/start", "Мужской"]

/-- C1 counterexample: two reachable sessions sit in the age-collection
state with the age (from the earlier pass) still populated — one via the
menu's restart action, one via `/start` issued mid-questionnaire — so the
claimed invariant fails on reachable states. -/
theorem c1_counterexample :
    (Reachable c1_demoRestart ∧ c1_demoRestart.state = UserStates.age ∧
      c1_demoRestart.data.age = some 30 ∧ ¬ stateInv c1_demoRestart) ∧
    (Reachable c1_demoStart ∧ c1_demoStart.state = UserStates.age ∧
      c1_demoStart.data.age = some 30 ∧ ¬ stateInv c1_demoStart) := by
  have e1 : step initConfig "/start" = ⟨.gender, {}⟩ := step_start initConfig
  have e2 : step ⟨.gender, ({} : SessionData)⟩ "Мужской" = ⟨.age, d_g⟩ :=
    step_gender_any {} "Мужской" (by decide) (by decide)
  have e3 : step ⟨.age, d_g⟩ "30" = ⟨.weight, d_ga⟩ := by
    rw [(step_handler d_g "30" (by decide) (by decide)).1]
    have hp : parseInt "30" = some 30 := by decide
    simp only [process_age, hp]
    rw [if_neg (by decide)]
    rfl
  have hp70 : parsePyFloat "70" = some 70 := by
    have hd1 : digitsToNat ['7', '0'] = 70 := by decide
    have hd0 : digitsToNat ([] : List Char) = 0 := by decide
    have hval : ratOfParts ['7', '0'] [] = (70 : ℚ) := by
      unfold ratOfParts
      rw [hd1, hd0]
      norm_num
    show some (ratOfParts ['7', '0'] []) = some (70 : ℚ)
    rw [hval]
  have hp175 : parsePyFloat "175" = some 175 := by
    have hd1 : digitsToNat ['1', '7', '5'] = 175 := by decide
    have hd0 : digitsToNat ([] : List Char) = 0 := by decide
    have hval : ratOfParts ['1', '7', '5'] [] = (175 : ℚ) := by
      unfold ratOfParts
      rw [hd1, hd0]
      norm_num
    show some (ratOfParts ['1', '7', '5'] []) = some (175 : ℚ)
    rw [hval]
  have e4 : step ⟨.weight, d_ga⟩ "70" = ⟨.height, d_gaw⟩ := by
    rw [(step_handler d_ga "70" (by decide) (by decide)).2.1]
    have hrc : replaceComma "70" = "70" := by decide
    simp only [process_weight, hrc, hp70]
    rw [if_neg (by norm_num)]
    rfl
  have e5 : step ⟨.height, d_gaw⟩ "175" = ⟨.activity, d_gawh⟩ := by
    rw [(step_handler d_gaw "175" (by decide) (by decide)).2.2.1]
    have hrc : replaceComma "175" = "175" := by decide
    simp only [process_height, hrc, hp175]
    rw [if_neg (by norm_num)]
    rfl
  have e6 : step ⟨.activity, d_gawh⟩ "Средняя" = ⟨.goal, d_gawha⟩ := by
    rw [(step_handler d_gawh "Средняя" (by decide) (by decide)).2.2.2.1]
    unfold process_activity
    rw [if_pos (by decide)]
    rfl
  have e7 : step ⟨.goal, d_gawha⟩ "Поддерживать форму" = ⟨.menu, d_full⟩ := by
    rw [(step_handler d_gawha "Поддерживать форму" (by decide) (by decide)).2.2.2.2]
    unfold process_goal
    rw [if_pos (by decide)]
    rfl
  have e8 : step ⟨.menu, d_full⟩ "🔄 Пересчитать" = ⟨.gender, d_full⟩ :=
    step_menu_restart d_full
  have e9 : step ⟨.gender, d_full⟩ "Женский" =
      ⟨.age, { d_full with gender := some "Женский" }⟩ :=
    step_gender_any d_full "Женский" (by decide) (by decide)
  have hrun : c1_demoRestart = ⟨.age, { d_full with gender := some "Женский" }⟩ := by
    simp only [c1_demoRestart, run, List.foldl_cons, List.foldl_nil,
      e1, e2, e3, e4, e5, e6, e7, e8, e9]
  have e4s : step ⟨.weight, d_ga⟩ "/start" = ⟨.gender, d_ga⟩ := step_start _
  have e5s : step ⟨.gender, d_ga⟩ "Мужской" = ⟨.age, d_ga⟩ :=
    step_gender_any d_ga "Мужской" (by decide) (by decide)
  have hrun2 : c1_demoStart = ⟨.age, d_ga⟩ := by
    simp only [c1_demoStart, run, List.foldl_cons, List.foldl_nil,
      e1, e2, e3, e4s, e5s]
  refine ⟨⟨reachable_run _ _ Reachable.init, ?_, ?_, ?_⟩,
    ⟨reachable_run _ _ Reachable.init, ?_, ?_, ?_⟩⟩
  · rw [hrun]
  · rw [hrun]; rfl
  · rw [hrun]
    intro hInv
    exact absurd hInv.2.1 (by decide)
  · rw [hrun2]
  · rw [hrun2]; rfl
  · rw [hrun2]
    intro hInv
    exact absurd hInv.2.1 (by decide)

/-- C6: in the age, weight and height states a non-command input is
stored and the session advances exactly when it parses (integer for age,
decimal with comma accepted for weight and height) and lies in range
([10,120], [30,300], [100,250]); otherwise state and data are unchanged.
Boundaries: age 10 and 120 accepted, 9 and 121 rejected in place. -/
theorem c6_numeric_validation (d : SessionData) (t : String)
    (h1 : t ≠ "/start") (h2 : t ≠ "/cancel") :
    (∀ n : ℤ, parseInt t = some n → 10 ≤ n → n ≤ 120 →
      step ⟨.age, d⟩ t = ⟨.weight, { d with age := some n }⟩) ∧
    (∀ n : ℤ, parseInt t = some n → n < 10 ∨ 120 < n → step ⟨.age, d⟩ t = ⟨.age, d⟩) ∧
    (parseInt t = none → step ⟨.age, d⟩ t = ⟨.age, d⟩) ∧
    (∀ q : ℚ, parsePyFloat (replaceComma t) = some q → 30 ≤ q → q ≤ 300 →
      step ⟨.weight, d⟩ t = ⟨.height, { d with weight := some q }⟩) ∧
    (∀ q : ℚ, parsePyFloat (replaceComma t) = some q → q < 30 ∨ 300 < q →
      step ⟨.weight, d⟩ t = ⟨.weight, d⟩) ∧
    (parsePyFloat (replaceComma t) = none → step ⟨.weight, d⟩ t = ⟨.weight, d⟩) ∧
    (∀ q : ℚ, parsePyFloat (replaceComma t) = some q → 100 ≤ q → q ≤ 250 →
      step ⟨.height, d⟩ t = ⟨.activity, { d with height := some q }⟩) ∧
    (∀ q : ℚ, parsePyFloat (replaceComma t) = some q → q < 100 ∨ 250 < q →
      step ⟨.height, d⟩ t = ⟨.height, d⟩) ∧
    (parsePyFloat (replaceComma t) = none → step ⟨.height, d⟩ t = ⟨.height, d⟩) ∧
    step ⟨.age, d⟩ "10" = ⟨.weight, { d with age := some 10 }⟩ ∧
    step ⟨.age, d⟩ "120" = ⟨.weight, { d with age := some 120 }⟩ ∧
    step ⟨.age, d⟩ "9" = ⟨.age, d⟩ ∧
    step ⟨.age, d⟩ "121" = ⟨.age, d⟩ := by
  have ha := (step_handler d t h1 h2).1
  have hw := (step_handler d t h1 h2).2.1
  have hh := (step_handler d t h1 h2).2.2.1
  refine ⟨fun n hp hlo hhi => ?_, fun n hp hr => ?_, fun hp => ?_,
    fun q hp hlo hhi => ?_, fun q hp hr => ?_, fun hp => ?_,
    fun q hp hlo hhi => ?_, fun q hp hr => ?_, fun hp => ?_, ?_, ?_, ?_, ?_⟩
  · rw [ha]; simp only [process_age, hp]; rw [if_neg (by omega)]
  · rw [ha]; simp only [process_age, hp]; rw [if_pos hr]
  · rw [ha]; simp only [process_age, hp]
  · rw [hw]; simp only [process_weight, hp]
    rw [if_neg (by push_neg; exact ⟨hlo, hhi⟩)]
  · rw [hw]; simp only [process_weight, hp]; rw [if_pos hr]
  · rw [hw]; simp only [process_weight, hp]
  · rw [hh]; simp only [process_height, hp]
    rw [if_neg (by push_neg; exact ⟨hlo, hhi⟩)]
  · rw [hh]; simp only [process_height, hp]; rw [if_pos hr]
  · rw [hh]; simp only [process_height, hp]
  · rw [(step_handler d "10" (by decide) (by decide)).1]
    have hp : parseInt "10" = some 10 := by decide
    simp only [process_age, hp]; rw [if_neg (by decide)]
  · rw [(step_handler d "120" (by decide) (by decide)).1]
    have hp : parseInt "120" = some 120 := by decide
    simp only [process_age, hp]; rw [if_neg (by decide)]
  · rw [(step_handler d "9" (by decide) (by decide)).1]
    have hp : parseInt "9" = some 9 := by decide
    simp only [process_age, hp]; rw [if_pos (by decide)]
  · rw [(step_handler d "121" (by decide) (by decide)).1]
    have hp : parseInt "121" = some 121 := by decide
    simp only [process_age, hp]; rw [if_pos (by decide)]

/-- C6 witness: a concrete in-range age input is stored and advances. -/
theorem c6_numeric_validation_witness :
    step ⟨.age, {}⟩ "42" = ⟨.weight, { ({} : SessionData) with age := some 42 }⟩ :=
  (c6_numeric_validation {} "42" (by decide) (by decide)).1 42 (by decide)
    (by decide) (by decide)

/-- C4: `calculate_macros` rounds each of the 30/25/45 caloric shares
independently (4 kcal/g protein and carbs, 9 kcal/g fat), and
`calculate_macros 2439 = {protein := 183, fat := 68, carbs := 274}`. -/
theorem c4_macros (c : ℤ) :
    calculate_macros c =
      ⟨pythonRound ((c : ℚ) * 0.30 / 4), pythonRound ((c : ℚ) * 0.25 / 9),
        pythonRound ((c : ℚ) * 0.45 / 4)⟩ ∧
    calculate_macros 2439 = ⟨183, 68, 274⟩ := by
  refine ⟨rfl, ?_⟩
  simp only [calculate_macros, MacroSplit.mk.injEq]
  norm_num [pythonRound]

/-- C10: the delivery code contradicts the 4096-character transport
limit its own comment cites.  A plan text of exactly 4096 `a` characters
is not split (the guard is `len > 4096`), and the single message then
sent — the 44-character head plus the text — is 4140 characters long,
above the 4096 limit every outbound message is claimed to respect. -/
theorem c10_chunking_code_bug :
    sendMenu (List.replicate 4096 'a') = [singleHead ++ List.replicate 4096 'a'] ∧
    (singleHead ++ List.replicate 4096 'a').length = 4140 ∧
    4096 < (singleHead ++ List.replicate 4096 'a').length := by
  have h44 : singleHead.length = 44 := by decide
  have hlen : (singleHead ++ List.replicate 4096 'a').length = 4140 := by
    rw [List.length_append, h44, List.length_replicate]
  refine ⟨?_, hlen, by rw [hlen]; omega⟩
  unfold sendMenu
  rw [if_neg (by rw [List.length_replicate]; omega)]

end NutriBot
